import Mathlib

/-!
Verification development for the Filament backend driver core
(`filament/backend/src/Driver.cpp`): the deferred-release registry
(`DriverBase::purge`, `scheduleDestroySlow`, `scheduleRelease`), the
debug-command marker wrappers (`debugCommandBegin` / `debugCommandEnd`),
the destructor `DriverBase::~DriverBase`, and the element-size table
(`Driver::getElementTypeSize`).

Machine state and effects are embedded shallowly: the two pending-release
lists become Lean lists of resource identifiers, lock operations and
callback invocations become explicit events in a trace, and the
defer-release operations become pure state transformers that also return
the trace of events they perform, in order.
-/

namespace FilamentDriver

/-! ## Element types (`Driver::getElementTypeSize`)

`ElementType` is the closed enumeration from `backend/DriverEnums.h`,
listed in the order of the `switch` in `Driver::getElementTypeSize`.
-/

inductive ElementType where
  | BYTE | BYTE2 | BYTE3 | BYTE4
  | UBYTE | UBYTE2 | UBYTE3 | UBYTE4
  | SHORT | SHORT2 | SHORT3 | SHORT4
  | USHORT | USHORT2 | USHORT3 | USHORT4
  | INT | UINT
  | FLOAT | FLOAT2 | FLOAT3 | FLOAT4
  | HALF | HALF2 | HALF3 | HALF4
deriving DecidableEq, Repr

/-- Embedding of `Driver::getElementTypeSize`: each `case` of the `switch`
returns the `sizeof` of the corresponding scalar or packed vector type
(`sizeof(int8_t) = 1`, `sizeof(byte3) = 3`, `sizeof(half2) = 4`,
`sizeof(float4) = 16`, and so on). -/
def getElementTypeSize : ElementType → Nat
  | .BYTE => 1
  | .BYTE2 => 2
  | .BYTE3 => 3
  | .BYTE4 => 4
  | .UBYTE => 1
  | .UBYTE2 => 2
  | .UBYTE3 => 3
  | .UBYTE4 => 4
  | .SHORT => 2
  | .SHORT2 => 4
  | .SHORT3 => 6
  | .SHORT4 => 8
  | .USHORT => 2
  | .USHORT2 => 4
  | .USHORT3 => 6
  | .USHORT4 => 8
  | .INT => 4
  | .UINT => 4
  | .FLOAT => 4
  | .FLOAT2 => 8
  | .FLOAT3 => 12
  | .FLOAT4 => 16
  | .HALF => 2
  | .HALF2 => 4
  | .HALF3 => 6
  | .HALF4 => 8

/-- The byte-count table exactly as the spec words it ("BYTE/UBYTE=1;
BYTE2/UBYTE2=2; ...; INT/UINT/FLOAT=4; FLOAT2=8; FLOAT3=12; FLOAT4=16"),
written from the spec for comparison against `getElementTypeSize`. -/
def specElementSize : ElementType → Nat
  | .BYTE | .UBYTE => 1
  | .BYTE2 | .UBYTE2 => 2
  | .BYTE3 | .UBYTE3 => 3
  | .BYTE4 | .UBYTE4 => 4
  | .SHORT | .USHORT | .HALF => 2
  | .SHORT2 | .USHORT2 | .HALF2 => 4
  | .SHORT3 | .USHORT3 | .HALF3 => 6
  | .SHORT4 | .USHORT4 | .HALF4 => 8
  | .INT | .UINT | .FLOAT => 4
  | .FLOAT2 => 8
  | .FLOAT3 => 12
  | .FLOAT4 => 16

/-- Modelled from the spec: the underlying integer values of the
`ElementType` enumeration (its `enum class` declaration is in
`backend/DriverEnums.h`, which is not part of the source under
verification). Per C++ enumeration semantics the enumerators number
consecutively from 0 in declaration order, giving the 26 values 0..25. -/
def elementTypeOfVal : Nat → Option ElementType
  | 0 => some .BYTE
  | 1 => some .BYTE2
  | 2 => some .BYTE3
  | 3 => some .BYTE4
  | 4 => some .UBYTE
  | 5 => some .UBYTE2
  | 6 => some .UBYTE3
  | 7 => some .UBYTE4
  | 8 => some .SHORT
  | 9 => some .SHORT2
  | 10 => some .SHORT3
  | 11 => some .SHORT4
  | 12 => some .USHORT
  | 13 => some .USHORT2
  | 14 => some .USHORT3
  | 15 => some .USHORT4
  | 16 => some .INT
  | 17 => some .UINT
  | 18 => some .FLOAT
  | 19 => some .FLOAT2
  | 20 => some .FLOAT3
  | 21 => some .FLOAT4
  | 22 => some .HALF
  | 23 => some .HALF2
  | 24 => some .HALF3
  | 25 => some .HALF4
  | _ => none

/-- The `switch` of `Driver::getElementTypeSize` viewed on the underlying
integer value: a value naming an enumerator hits that enumerator's `case`
and returns its size; any other value falls through past the `switch`
with no `return`, which is undefined behaviour, modelled as `none`. -/
def getElementTypeSizeRaw (v : Nat) : Option Nat :=
  match elementTypeOfVal v with
  | some t => some (getElementTypeSize t)
  | none => none

/-! ## Deferred-release registry (`DriverBase` purge subsystem)

The two pending lists `mBufferToPurge : std::vector<BufferDescriptor>` and
`mImagesToPurge : std::vector<AcquiredImage>` are modelled as lists of
resource identifiers: an identifier stands for one scheduled resource
together with its owner-supplied release callback and user data, so an
event `imageCallback x` (resp. `bufferCallback x`) records the invocation
`x.callback(x.image, x.userData)` (resp. the buffer callback fired by the
`BufferDescriptor` destructor). Lock operations on `mPurgeLock` appear as
explicit `lockAcquire` / `lockRelease` events so that lock-ordering claims
can be stated on the trace. -/

structure DriverState where
  mBufferToPurge : List Nat
  mImagesToPurge : List Nat
deriving DecidableEq, Repr

/-- Events performed by the registry operations, in program order. -/
inductive Event where
  | lockAcquire
  | swap
  | pushBack (id : Nat)
  | lockRelease
  | imageCallback (id : Nat)
  | bufferCallback (id : Nat)
deriving DecidableEq, Repr

/-- A callback-invocation event (the only events that run owner code). -/
def Event.isCallback : Event → Bool
  | .imageCallback _ => true
  | .bufferCallback _ => true
  | _ => false

/-- Projects an image-callback invocation out of an event. -/
def eventImageId : Event → Option Nat
  | .imageCallback x => some x
  | _ => none

/-- Projects a buffer-callback invocation out of an event. -/
def eventBufferId : Event → Option Nat
  | .bufferCallback x => some x
  | _ => none

/-- Embedding of `DriverBase::purge`: under `mPurgeLock`, swap both pending
lists with the empty locals `buffersToPurge` / `imagesToPurge`; release the
lock; then invoke every acquired image's callback in list order; finally the
local `BufferDescriptor` vector goes out of scope and each buffer's
destructor invokes its callback, in list order. The result is the new
registry state paired with the trace of events in the order they happen. -/
def purge (s : DriverState) : DriverState × List Event :=
  ({ mBufferToPurge := [], mImagesToPurge := [] },
   [Event.lockAcquire, Event.swap, Event.lockRelease]
     ++ s.mImagesToPurge.map Event.imageCallback
     ++ s.mBufferToPurge.map Event.bufferCallback)

/-- Embedding of `DriverBase::scheduleDestroySlow`: under `mPurgeLock`
(`std::lock_guard`), `mBufferToPurge.push_back(std::move(buffer))`. -/
def scheduleDestroySlow (buffer : Nat) (s : DriverState) : DriverState × List Event :=
  ({ s with mBufferToPurge := s.mBufferToPurge ++ [buffer] },
   [Event.lockAcquire, Event.pushBack buffer, Event.lockRelease])

/-- Embedding of `DriverBase::scheduleRelease`: under `mPurgeLock`
(`std::lock_guard`), `mImagesToPurge.push_back(std::move(image))`. -/
def scheduleRelease (image : Nat) (s : DriverState) : DriverState × List Event :=
  ({ s with mImagesToPurge := s.mImagesToPurge ++ [image] },
   [Event.lockAcquire, Event.pushBack image, Event.lockRelease])

/-! ## Interleaved executions

`mPurgeLock` serializes `scheduleDestroySlow`, `scheduleRelease` and the
critical section of `purge`, so a concurrent history of these calls (from
the execution thread and the user thread) is observed as some sequential
order of the three operations. `run` executes such an order and collects
the concatenated event trace. -/

inductive Op where
  | scheduleBuffer (id : Nat)
  | scheduleImage (id : Nat)
  | purge
deriving DecidableEq, Repr

def step (s : DriverState) : Op → DriverState × List Event
  | .scheduleBuffer b => scheduleDestroySlow b s
  | .scheduleImage i => scheduleRelease i s
  | .purge => purge s

def run (s : DriverState) : List Op → DriverState × List Event
  | [] => (s, [])
  | op :: rest =>
    ((run (step s op).1 rest).1, (step s op).2 ++ (run (step s op).1 rest).2)

/-- Tests whether an event invokes the release callback of resource `x`. -/
def cbEventP (x : Nat) : Event → Bool
  | .imageCallback y => y == x
  | .bufferCallback y => y == x
  | _ => false

/-- Number of callback invocations for resource `x` in a trace. -/
def cbCount (x : Nat) (tr : List Event) : Nat :=
  tr.countP (cbEventP x)

/-- Tests whether an operation schedules resource `x` for release. -/
def schedOpP (x : Nat) : Op → Bool
  | .scheduleBuffer y => y == x
  | .scheduleImage y => y == x
  | .purge => false

/-- Number of times resource `x` is scheduled in an operation sequence. -/
def schedCount (x : Nat) (ops : List Op) : Nat :=
  ops.countP (schedOpP x)

/-- Number of pending occurrences of resource `x` in the registry. -/
def pendCount (x : Nat) (s : DriverState) : Nat :=
  s.mBufferToPurge.countP (· == x) + s.mImagesToPurge.countP (· == x)

/-! ## Reentrant scheduling during purge

To settle the no-deadlock property the lock is made part of the state.
`std::mutex` is not recursive: acquiring it again from the thread that
already holds it does not complete (undefined behaviour / deadlock), so an
acquisition attempt while `locked = true` is modelled as `none`. Release
callbacks may themselves call the schedule operations; a callback's
scheduling behaviour is a list of such calls, given by an `effect`
function from the resource identifier. -/

structure LockedState where
  locked : Bool
  mBufferToPurge : List Nat
  mImagesToPurge : List Nat
deriving DecidableEq, Repr

/-- A schedule call made from inside a release callback. -/
inductive SchedCall where
  | buffer (id : Nat)
  | image (id : Nat)
deriving DecidableEq, Repr

/-- `scheduleDestroySlow` with the lock explicit: the `std::lock_guard`
acquisition deadlocks (`none`) if the mutex is already held, otherwise the
buffer is appended and the guard releases the lock on scope exit. -/
def lockedScheduleBuffer (b : Nat) (s : LockedState) : Option LockedState :=
  if s.locked then none
  else some { s with mBufferToPurge := s.mBufferToPurge ++ [b] }

/-- `scheduleRelease` with the lock explicit, as `lockedScheduleBuffer`. -/
def lockedScheduleImage (i : Nat) (s : LockedState) : Option LockedState :=
  if s.locked then none
  else some { s with mImagesToPurge := s.mImagesToPurge ++ [i] }

/-- Runs the schedule calls a single release callback makes, in order. -/
def runCallbackEffect : List SchedCall → LockedState → Option LockedState
  | [], s => some s
  | SchedCall.buffer b :: rest, s => (lockedScheduleBuffer b s).bind (runCallbackEffect rest)
  | SchedCall.image i :: rest, s => (lockedScheduleImage i s).bind (runCallbackEffect rest)

/-- Invokes the release callbacks of the listed resources in order, each
performing its scheduling effect. -/
def runCallbacks (effect : Nat → List SchedCall) : List Nat → LockedState → Option LockedState
  | [], s => some s
  | i :: rest, s => (runCallbackEffect (effect i) s).bind (runCallbacks effect rest)

/-- `DriverBase::purge` with the lock explicit and reentrant callbacks:
acquire `mPurgeLock` (deadlock if already held), swap both pending lists
with empty locals, release the lock, then run the image callbacks in list
order and then the buffer callbacks (fired by the `BufferDescriptor`
destructors) in list order, each callback performing its scheduling
effect on the now-unlocked registry. Returns the final state and the
identifiers whose callbacks this purge invoked, in invocation order. -/
def purgeReentrant (effect : Nat → List SchedCall) (s : LockedState) :
    Option (LockedState × List Nat) :=
  if s.locked then none
  else
    (runCallbacks effect s.mImagesToPurge
        { locked := false, mBufferToPurge := [], mImagesToPurge := [] }).bind
      fun s1 =>
        (runCallbacks effect s.mBufferToPurge s1).map
          fun s2 => (s2, s.mImagesToPurge ++ s.mBufferToPurge)

/-- The buffer identifiers scheduled by a list of callback calls. -/
def schedBufs (eff : List SchedCall) : List Nat :=
  eff.filterMap fun c =>
    match c with
    | SchedCall.buffer b => some b
    | SchedCall.image _ => none

/-- The image identifiers scheduled by a list of callback calls. -/
def schedImgs (eff : List SchedCall) : List Nat :=
  eff.filterMap fun c =>
    match c with
    | SchedCall.buffer _ => none
    | SchedCall.image i => some i

/-- All schedule calls made by the callbacks of `ids`, in invocation order. -/
def allEffects (effect : Nat → List SchedCall) : List Nat → List SchedCall
  | [] => []
  | i :: rest => effect i ++ allEffects effect rest

/-! ## Teardown (`DriverBase::~DriverBase`)

The destructor body is `delete mDispatcher;`. After the body, C++ destroys
the data members, among them the two pending vectors.

Modelled from the spec: the destructor semantics of the element types of
those vectors live in headers that are not part of the source under
verification. Per the spec ("let the transient-buffer list go out of scope
so each buffer's own release callback fires as a side effect of its
disposal") and the comment in `DriverBase::purge`, destroying a
`BufferDescriptor` invokes its release callback; an `AcquiredImage` has no
such destructor side effect — its callback is only ever invoked explicitly
(as the loop in `purge` does). No queue drain and no call to `purge`
appears in the destructor. -/

inductive TeardownEvent where
  | deleteDispatcher
  | drainCommand
  | purgeCall
  | bufferCallback (id : Nat)
  | imageCallback (id : Nat)
deriving DecidableEq, Repr

/-- Embedding of `DriverBase::~DriverBase`: run the body
(`delete mDispatcher`), then destroy the members; destroying
`mBufferToPurge` fires each buffer's callback, destroying `mImagesToPurge`
fires nothing. `drainCommand` and `purgeCall` events exist in the
vocabulary so that draining or flushing at teardown would be visible in
the trace; the destructor emits neither. -/
def driverBaseDestructor (s : DriverState) : List TeardownEvent :=
  [TeardownEvent.deleteDispatcher] ++ s.mBufferToPurge.map TeardownEvent.bufferCallback

/-! ## Debug command markers (`debugCommandBegin` / `debugCommandEnd`)

Modelled from the spec: the `FILAMENT_DEBUG_COMMANDS` level constants live
in `DriverBase.h`, outside the source under verification; the spec gives
the switch three states {off, log-only, trace-markers}, modelled as two
flags (`log`, `systrace`, both false = off). The `if constexpr` tests
`> NONE`, `& LOG`, `& SYSTRACE` of the source become reads of these flags.
Everything else — which markers are emitted inline on the calling thread,
which are wrapped in `cmds->queueCommand(...)`, and in what order — is the
source's code. Method names and work payloads are numbered. -/

structure DebugCommandsConfig where
  log : Bool
  systrace : Bool
deriving DecidableEq, Repr

/-- A trace marker or log line observed on some thread. -/
inductive MarkerEvent where
  | logName (methodName : Nat)
  | traceBegin (methodName : Nat)
  | traceEnd
deriving DecidableEq, Repr

/-- A command sitting in the `CommandStream` queue. When the execution
thread drains the queue it runs these strictly in list (FIFO) order. -/
inductive QueuedCommand where
  | beginMarker (methodName : Nat)
  | realWork (payload : Nat)
  | endMarker
deriving DecidableEq, Repr

/-- One step a wrapper performs on the calling thread, in program order:
either emit a marker immediately, or enqueue a command via
`cmds->queueCommand(...)`. -/
inductive CallAction where
  | emit (e : MarkerEvent)
  | queueCommand (c : QueuedCommand)
deriving DecidableEq, Repr

/-- Embedding of `DriverBase::debugCommandBegin`: when debugging is
enabled, optionally log the method name; with systrace on, emit the begin
marker immediately (`SYSTRACE_NAME_BEGIN(methodName)`), and if the
operation is not synchronous also enqueue a command that emits the begin
marker on the execution thread. -/
def debugCommandBegin (cfg : DebugCommandsConfig) (synchronous : Bool) (methodName : Nat) :
    List CallAction :=
  if cfg.log || cfg.systrace then
    (if cfg.log then [CallAction.emit (MarkerEvent.logName methodName)] else [])
      ++ (if cfg.systrace then
            [CallAction.emit (MarkerEvent.traceBegin methodName)]
              ++ (if !synchronous then [CallAction.queueCommand (QueuedCommand.beginMarker methodName)]
                  else [])
          else [])
  else []

/-- Embedding of `DriverBase::debugCommandEnd`: when debugging is enabled
and systrace is on, if the operation is not synchronous first enqueue a
command that emits the end marker on the execution thread, then emit the
end marker immediately (`SYSTRACE_NAME_END()`). -/
def debugCommandEnd (cfg : DebugCommandsConfig) (synchronous : Bool) (methodName : Nat) :
    List CallAction :=
  if cfg.log || cfg.systrace then
    (if cfg.systrace then
      (if !synchronous then [CallAction.queueCommand QueuedCommand.endMarker] else [])
        ++ [CallAction.emit MarkerEvent.traceEnd]
     else [])
  else []

/-- The markers a wrapper call emits immediately on the calling thread. -/
def immediateMarkers (as : List CallAction) : List MarkerEvent :=
  as.filterMap fun a =>
    match a with
    | CallAction.emit e => some e
    | CallAction.queueCommand _ => none

/-- The commands a wrapper call enqueues on the `CommandStream`. -/
def enqueuedCommands (as : List CallAction) : List QueuedCommand :=
  as.filterMap fun a =>
    match a with
    | CallAction.emit _ => none
    | CallAction.queueCommand c => some c

/-! ## Theorems -/

/-- C5: for every value of the closed `ElementType` enumeration,
`Driver::getElementTypeSize` returns exactly the byte count documented in
the spec's table (BYTE/UBYTE=1; ...; FLOAT4=16). The embedding is a pure
function, so the call is side-effect-free. -/
theorem getElementTypeSize_matches_table :
    ∀ t : ElementType, getElementTypeSize t = specElementSize t := by
  intro t
  cases t <;> rfl

/-- C6: `Driver::getElementTypeSize` is total on the closed enumeration —
every one of the 26 enumerated values hits a `case` that returns a defined
size, so the fall-through past the `switch` is unreachable for enumerated
arguments — while any underlying value outside the enumeration falls
through with no result (undefined behaviour, not a recoverable error). -/
theorem getElementTypeSize_total_on_enum :
    (∀ v : Nat, v < 26 → (getElementTypeSizeRaw v).isSome = true) ∧
    (∀ v : Nat, 26 ≤ v → getElementTypeSizeRaw v = none) := by
  constructor
  · decide
  · intro v hv
    obtain ⟨n, rfl⟩ : ∃ n, v = n + 26 := ⟨v - 26, by omega⟩
    rfl

/-- Witness for C6 at the enumerated value 3 (`BYTE4`) and the
out-of-range value 100. -/
theorem getElementTypeSize_total_on_enum_witness :
    (getElementTypeSizeRaw 3).isSome = true ∧ getElementTypeSizeRaw 100 = none :=
  ⟨getElementTypeSize_total_on_enum.1 3 (by decide),
   getElementTypeSize_total_on_enum.2 100 (by decide)⟩

/-- C9: `scheduleDestroySlow` takes the lock and appends its buffer at the
end of the pending-buffers list, leaving the pending-images list unchanged;
`scheduleRelease` symmetrically appends to the pending-images list and
leaves the pending-buffers list unchanged. The result-state equalities show
that existing elements are neither removed nor reordered, and the traces
contain no callback event. -/
theorem schedule_appends_under_lock :
    ∀ (s : DriverState) (b i : Nat),
      scheduleDestroySlow b s =
        ({ mBufferToPurge := s.mBufferToPurge ++ [b], mImagesToPurge := s.mImagesToPurge },
         [Event.lockAcquire, Event.pushBack b, Event.lockRelease]) ∧
      scheduleRelease i s =
        ({ mBufferToPurge := s.mBufferToPurge, mImagesToPurge := s.mImagesToPurge ++ [i] },
         [Event.lockAcquire, Event.pushBack i, Event.lockRelease]) ∧
      (scheduleDestroySlow b s).2.countP Event.isCallback = 0 ∧
      (scheduleRelease i s).2.countP Event.isCallback = 0 := by
  intro s b i
  exact ⟨rfl, rfl, rfl, rfl⟩

/-- Helper: a list of callback events contains no lock events. -/
theorem callbacks_no_lock_events (l : List Event) (h : ∀ e ∈ l, e.isCallback = true) :
    l.countP (· == Event.lockAcquire) = 0 ∧ l.countP (· == Event.lockRelease) = 0 := by
  constructor <;>
  · rw [List.countP_eq_zero]
    intro e he
    have := h e he
    cases e <;> simp_all [Event.isCallback]

/-- Helper: every event after the unlock in a purge trace is a callback. -/
theorem purge_tail_callbacks (s : DriverState) :
    ∀ e ∈ s.mImagesToPurge.map Event.imageCallback
          ++ s.mBufferToPurge.map Event.bufferCallback,
      e.isCallback = true := by
  intro e he
  rcases List.mem_append.1 he with h | h <;>
    rcases List.mem_map.1 h with ⟨x, _, rfl⟩ <;> rfl

/-- Helper: an element found at position `p` of `l1 ++ l2` but absent from
`l2` sits in the left part, so `p < l1.length`. -/
theorem getElem?_append_pos_left {α : Type} (l1 l2 : List α) (p : Nat) (e : α)
    (hmem : e ∉ l2) (h : (l1 ++ l2)[p]? = some e) : p < l1.length := by
  by_contra hp
  push_neg at hp
  rw [List.getElem?_append_right hp] at h
  exact hmem (List.getElem?_mem h)

/-- Helper: an element found at position `q` of `l1 ++ l2` but absent from
`l1` sits in the right part, so `l1.length ≤ q`. -/
theorem getElem?_append_pos_right {α : Type} (l1 l2 : List α) (q : Nat) (e : α)
    (hmem : e ∉ l1) (h : (l1 ++ l2)[q]? = some e) : l1.length ≤ q := by
  by_contra hq
  push_neg at hq
  rw [List.getElem?_append_left hq] at h
  exact hmem (List.getElem?_mem h)

/-- C1: in every `DriverBase::purge` trace the lock is held exactly for the
swap of the two pending lists — the first three events are acquire, swap,
release — and every callback event occurs strictly after the release, at a
position where the numbers of lock acquisitions and releases in the
preceding prefix balance, i.e. no owner-supplied release callback ever runs
while `mPurgeLock` is held. -/
theorem purge_callbacks_after_unlock :
    ∀ (s : DriverState) (i : Nat) (e : Event),
      ((purge s).2)[i]? = some e →
      e.isCallback = true →
      ((purge s).2).take 3 = [Event.lockAcquire, Event.swap, Event.lockRelease] ∧
      3 ≤ i ∧
      (((purge s).2).take i).countP (· == Event.lockAcquire)
        = (((purge s).2).take i).countP (· == Event.lockRelease) := by
  intro s i e hget hcb
  rcases i with _ | _ | _ | n
  · simp [purge] at hget
    subst hget
    simp [Event.isCallback] at hcb
  · simp [purge] at hget
    subst hget
    simp [Event.isCallback] at hcb
  · simp [purge] at hget
    subst hget
    simp [Event.isCallback] at hcb
  · refine ⟨rfl, by omega, ?_⟩
    have htr : (purge s).2 = Event.lockAcquire :: Event.swap :: Event.lockRelease ::
        (s.mImagesToPurge.map Event.imageCallback
          ++ s.mBufferToPurge.map Event.bufferCallback) := rfl
    have hsub : ∀ e ∈ (s.mImagesToPurge.map Event.imageCallback
        ++ s.mBufferToPurge.map Event.bufferCallback).take n, e.isCallback = true :=
      fun e he => purge_tail_callbacks s e (List.take_subset n _ he)
    have hz := callbacks_no_lock_events _ hsub
    rw [htr]
    simp [List.take_succ_cons, List.countP_cons, hz.1, hz.2]

/-- Witness for C1: purging the registry holding buffer 5 and image 7,
the image callback sits at position 3 of the trace, after the unlock. -/
theorem purge_callbacks_after_unlock_witness :
    ((purge { mBufferToPurge := [5], mImagesToPurge := [7] }).2).take 3
        = [Event.lockAcquire, Event.swap, Event.lockRelease] ∧
      3 ≤ 3 ∧
      (((purge { mBufferToPurge := [5], mImagesToPurge := [7] }).2).take 3).countP
          (· == Event.lockAcquire)
        = (((purge { mBufferToPurge := [5], mImagesToPurge := [7] }).2).take 3).countP
          (· == Event.lockRelease) :=
  purge_callbacks_after_unlock { mBufferToPurge := [5], mImagesToPurge := [7] } 3
    (Event.imageCallback 7) (by rfl) (by rfl)

/-- Helper: projecting image callbacks back out of a mapped image list. -/
theorem filterMap_eventImageId_map (l : List Nat) :
    (l.map Event.imageCallback).filterMap eventImageId = l := by
  induction l with
  | nil => rfl
  | cons x xs ih => simp [List.filterMap_cons, eventImageId, ih]

/-- Helper: projecting buffer callbacks back out of a mapped buffer list. -/
theorem filterMap_eventBufferId_map (l : List Nat) :
    (l.map Event.bufferCallback).filterMap eventBufferId = l := by
  induction l with
  | nil => rfl
  | cons x xs ih => simp [List.filterMap_cons, eventBufferId, ih]

/-- Helper: no image callback hides among mapped buffer callbacks. -/
theorem filterMap_eventImageId_map_buffer (l : List Nat) :
    (l.map Event.bufferCallback).filterMap eventImageId = [] := by
  induction l with
  | nil => rfl
  | cons x xs ih => simp [List.filterMap_cons, eventImageId, ih]

/-- Helper: no buffer callback hides among mapped image callbacks. -/
theorem filterMap_eventBufferId_map_image (l : List Nat) :
    (l.map Event.imageCallback).filterMap eventBufferId = [] := by
  induction l with
  | nil => rfl
  | cons x xs ih => simp [List.filterMap_cons, eventBufferId, ih]

/-- C4: within one `DriverBase::purge`, the image callbacks fire exactly in
the order the images were scheduled (projecting the trace onto image
callbacks returns the pending-images list) and likewise for the buffer
callbacks, and every image callback occurs at a strictly earlier trace
position than every buffer callback — buffers are released last, when the
local buffer list is disposed. -/
theorem purge_callback_order :
    ∀ s : DriverState,
      ((purge s).2).filterMap eventImageId = s.mImagesToPurge ∧
      ((purge s).2).filterMap eventBufferId = s.mBufferToPurge ∧
      ∀ (p q x y : Nat), ((purge s).2)[p]? = some (Event.imageCallback x) →
                 ((purge s).2)[q]? = some (Event.bufferCallback y) → p < q := by
  intro s
  have hImgHead : List.filterMap eventImageId
      [Event.lockAcquire, Event.swap, Event.lockRelease] = [] := rfl
  have hBufHead : List.filterMap eventBufferId
      [Event.lockAcquire, Event.swap, Event.lockRelease] = [] := rfl
  refine ⟨?_, ?_, ?_⟩
  · show (([Event.lockAcquire, Event.swap, Event.lockRelease]
        ++ s.mImagesToPurge.map Event.imageCallback)
        ++ s.mBufferToPurge.map Event.bufferCallback).filterMap eventImageId
      = s.mImagesToPurge
    rw [List.filterMap_append, List.filterMap_append, hImgHead,
      filterMap_eventImageId_map, filterMap_eventImageId_map_buffer,
      List.nil_append, List.append_nil]
  · show (([Event.lockAcquire, Event.swap, Event.lockRelease]
        ++ s.mImagesToPurge.map Event.imageCallback)
        ++ s.mBufferToPurge.map Event.bufferCallback).filterMap eventBufferId
      = s.mBufferToPurge
    rw [List.filterMap_append, List.filterMap_append, hBufHead,
      filterMap_eventBufferId_map_image, filterMap_eventBufferId_map,
      List.nil_append, List.nil_append]
  · intro p q x y hp hq
    have hp' : (([Event.lockAcquire, Event.swap, Event.lockRelease]
        ++ s.mImagesToPurge.map Event.imageCallback)
        ++ s.mBufferToPurge.map Event.bufferCallback)[p]?
        = some (Event.imageCallback x) := hp
    have hq' : (([Event.lockAcquire, Event.swap, Event.lockRelease]
        ++ s.mImagesToPurge.map Event.imageCallback)
        ++ s.mBufferToPurge.map Event.bufferCallback)[q]?
        = some (Event.bufferCallback y) := hq
    have h1 : p < ([Event.lockAcquire, Event.swap, Event.lockRelease]
        ++ s.mImagesToPurge.map Event.imageCallback).length :=
      getElem?_append_pos_left _ _ p _ (by simp) hp'
    have h2 : ([Event.lockAcquire, Event.swap, Event.lockRelease]
        ++ s.mImagesToPurge.map Event.imageCallback).length ≤ q :=
      getElem?_append_pos_right _ _ q _ (by simp) hq'
    omega

/-- Witness for C4: purging the registry holding buffer 5 and image 7, the
projections give the scheduled lists and the image callback at position 3
precedes the buffer callback at position 4. -/
theorem purge_callback_order_witness :
    ((purge { mBufferToPurge := [5], mImagesToPurge := [7] }).2).filterMap eventImageId = [7] ∧
    ((purge { mBufferToPurge := [5], mImagesToPurge := [7] }).2).filterMap eventBufferId = [5] ∧
    (3 : Nat) < 4 :=
  ⟨(purge_callback_order _).1, (purge_callback_order _).2.1,
   (purge_callback_order { mBufferToPurge := [5], mImagesToPurge := [7] }).2.2 3 4 7 5
     (by rfl) (by rfl)⟩

/-- Helper: running a concatenation of operation sequences runs the second
from the state the first leaves, concatenating the traces. -/
theorem run_append :
    ∀ (l1 l2 : List Op) (s : DriverState),
      run s (l1 ++ l2)
        = ((run (run s l1).1 l2).1, (run s l1).2 ++ (run (run s l1).1 l2).2) := by
  intro l1
  induction l1 with
  | nil => intro l2 s; simp [run]
  | cons op rest ih => intro l2 s; simp [run, ih, List.append_assoc]

/-- Helper: callback counting distributes over trace concatenation. -/
theorem cbCount_append (x : Nat) (t1 t2 : List Event) :
    cbCount x (t1 ++ t2) = cbCount x t1 + cbCount x t2 :=
  List.countP_append _ t1 t2

/-- Helper: schedule counting distributes over history concatenation. -/
theorem schedCount_append (x : Nat) (l1 l2 : List Op) :
    schedCount x (l1 ++ l2) = schedCount x l1 + schedCount x l2 :=
  List.countP_append _ l1 l2

/-- Helper: the callback predicate applied to mapped image callbacks. -/
theorem cbEventP_comp_image (x : Nat) :
    cbEventP x ∘ Event.imageCallback = fun y => y == x := rfl

/-- Helper: the callback predicate applied to mapped buffer callbacks. -/
theorem cbEventP_comp_buffer (x : Nat) :
    cbEventP x ∘ Event.bufferCallback = fun y => y == x := rfl

/-- Helper: one operation conserves resource instances — each occurrence of
resource `x` scheduled so far is either still pending or has had its
callback invoked, exactly one of the two. -/
theorem step_conservation (s : DriverState) (op : Op) (x : Nat) :
    pendCount x (step s op).1 + cbCount x (step s op).2
      = pendCount x s + schedCount x [op] := by
  cases op with
  | scheduleBuffer b =>
    simp [step, scheduleDestroySlow, pendCount, cbCount, schedCount,
      cbEventP, schedOpP, List.countP_append, List.countP_cons]
    omega
  | scheduleImage i =>
    simp [step, scheduleRelease, pendCount, cbCount, schedCount,
      cbEventP, schedOpP, List.countP_append, List.countP_cons]
    omega
  | purge =>
    simp [step, purge, pendCount, cbCount, schedCount, schedOpP,
      List.countP_append, List.countP_cons, List.countP_map,
      cbEventP_comp_image, cbEventP_comp_buffer, cbEventP]
    omega

/-- Helper: conservation along a whole operation sequence. -/
theorem run_conservation :
    ∀ (ops : List Op) (s : DriverState) (x : Nat),
      pendCount x (run s ops).1 + cbCount x (run s ops).2
        = pendCount x s + schedCount x ops := by
  intro ops
  induction ops with
  | nil => intro s x; simp [run, cbCount, schedCount]
  | cons op rest ih =>
    intro s x
    have h1 := step_conservation s op x
    have h2 := ih (step s op).1 x
    have hcb : cbCount x (run s (op :: rest)).2
        = cbCount x (step s op).2 + cbCount x (run (step s op).1 rest).2 := by
      simp [run, cbCount, List.countP_append]
    have hsched : schedCount x (op :: rest)
        = schedCount x [op] + schedCount x rest := by
      simp [schedCount, List.countP_cons]
      omega
    have hst : (run s (op :: rest)).1 = (run (step s op).1 rest).1 := by
      simp [run]
    rw [hcb, hsched, hst]
    omega

/-- Helper: a sequence ending in a purge leaves the registry empty. -/
theorem run_snoc_purge_state (s : DriverState) (l : List Op) :
    (run s (l ++ [Op.purge])).1 = { mBufferToPurge := [], mImagesToPurge := [] } := by
  rw [run_append]
  simp [run, step, purge]

/-- C2: in any serialized history of schedule and purge calls (the shared
`mPurgeLock` serializes concurrent scheduling), a resource `x` scheduled
once — by `scheduleDestroySlow` or by `scheduleRelease` — and not pending
or scheduled elsewhere in the history has its release callback invoked
exactly once by the time the first subsequent `purge` returns, and it is
never invoked again by any later operations. -/
theorem scheduled_release_fires_exactly_once :
    ∀ (s0 : DriverState) (pre mid post : List Op) (x : Nat) (schedOp : Op),
      (schedOp = Op.scheduleBuffer x ∨ schedOp = Op.scheduleImage x) →
      pendCount x s0 = 0 →
      schedCount x pre = 0 →
      schedCount x mid = 0 →
      schedCount x post = 0 →
      Op.purge ∉ mid →
      cbCount x (run s0 (pre ++ schedOp :: (mid ++ [Op.purge]))).2 = 1 ∧
      cbCount x (run s0 ((pre ++ schedOp :: (mid ++ [Op.purge])) ++ post)).2 = 1 := by
  intro s0 pre mid post x schedOp hsched hp0 hpre hmid hpost hnop
  have hop : schedOpP x schedOp = true := by
    rcases hsched with rfl | rfl <;> simp [schedOpP]
  have hschedA : schedCount x (pre ++ schedOp :: (mid ++ [Op.purge])) = 1 := by
    rw [schedCount_append]
    have : schedCount x (schedOp :: (mid ++ [Op.purge]))
        = schedCount x (mid ++ [Op.purge]) + 1 := by
      simp [schedCount, List.countP_cons, hop]
    rw [this, schedCount_append, hpre, hmid]
    simp [schedCount, List.countP_cons, schedOpP]
  have hshape : pre ++ schedOp :: (mid ++ [Op.purge])
      = (pre ++ schedOp :: mid) ++ [Op.purge] := by
    simp
  have hstate : (run s0 (pre ++ schedOp :: (mid ++ [Op.purge]))).1
      = { mBufferToPurge := [], mImagesToPurge := [] } := by
    rw [hshape]
    exact run_snoc_purge_state s0 (pre ++ schedOp :: mid)
  have hpend0 : pendCount x { mBufferToPurge := [], mImagesToPurge := [] } = 0 := rfl
  have hconsA := run_conservation (pre ++ schedOp :: (mid ++ [Op.purge])) s0 x
  rw [hstate, hschedA, hp0, hpend0] at hconsA
  have hcbA : cbCount x (run s0 (pre ++ schedOp :: (mid ++ [Op.purge]))).2 = 1 := by
    omega
  refine ⟨hcbA, ?_⟩
  have hconsP := run_conservation post
    (run s0 (pre ++ schedOp :: (mid ++ [Op.purge]))).1 x
  rw [hstate, hpend0, hpost] at hconsP
  rw [run_append, cbCount_append, hcbA, hstate]
  omega

/-- Witness for C2: buffer 0 scheduled into the empty registry and then
purged has its callback invoked exactly once, also after a trailing empty
history. -/
theorem scheduled_release_fires_exactly_once_witness :
    cbCount 0 (run { mBufferToPurge := [], mImagesToPurge := [] }
        ([] ++ Op.scheduleBuffer 0 :: ([] ++ [Op.purge]))).2 = 1 ∧
    cbCount 0 (run { mBufferToPurge := [], mImagesToPurge := [] }
        (([] ++ Op.scheduleBuffer 0 :: ([] ++ [Op.purge])) ++ [])).2 = 1 :=
  scheduled_release_fires_exactly_once { mBufferToPurge := [], mImagesToPurge := [] }
    [] [] [] 0 (Op.scheduleBuffer 0) (Or.inl rfl) rfl rfl rfl rfl (by decide)

/-- Helper: with the lock free, the schedule calls a callback makes all
succeed (acquiring and releasing the free lock around each append), leaving
the lock free and appending the scheduled identifiers in order. -/
theorem runCallbackEffect_free :
    ∀ (eff : List SchedCall) (s : LockedState), s.locked = false →
      runCallbackEffect eff s
        = some { locked := false,
                 mBufferToPurge := s.mBufferToPurge ++ schedBufs eff,
                 mImagesToPurge := s.mImagesToPurge ++ schedImgs eff } := by
  intro eff
  induction eff with
  | nil =>
    intro s hs
    obtain ⟨lk, bufs, imgs⟩ := s
    cases hs
    simp [runCallbackEffect, schedBufs, schedImgs]
  | cons c rest ih =>
    intro s hs
    obtain ⟨lk, bufs, imgs⟩ := s
    cases hs
    cases c with
    | buffer b =>
      simp [runCallbackEffect, lockedScheduleBuffer, Option.bind, ih, schedBufs, schedImgs,
        List.filterMap_cons, List.append_assoc]
    | image i =>
      simp [runCallbackEffect, lockedScheduleImage, Option.bind, ih, schedBufs, schedImgs,
        List.filterMap_cons, List.append_assoc]

/-- Helper: invoking a list of release callbacks with the lock free
succeeds and appends everything they schedule, in invocation order. -/
theorem runCallbacks_free :
    ∀ (ids : List Nat) (effect : Nat → List SchedCall) (s : LockedState), s.locked = false →
      runCallbacks effect ids s
        = some { locked := false,
                 mBufferToPurge := s.mBufferToPurge ++ schedBufs (allEffects effect ids),
                 mImagesToPurge := s.mImagesToPurge ++ schedImgs (allEffects effect ids) } := by
  intro ids
  induction ids with
  | nil =>
    intro effect s hs
    obtain ⟨lk, bufs, imgs⟩ := s
    cases hs
    simp [runCallbacks, allEffects, schedBufs, schedImgs]
  | cons i rest ih =>
    intro effect s hs
    rw [runCallbacks, runCallbackEffect_free (effect i) s hs]
    rw [Option.some_bind]
    rw [ih effect _ rfl]
    simp [allEffects, schedBufs, schedImgs, List.filterMap_append, List.append_assoc]

/-- Helper: `schedBufs` distributes over concatenated call lists. -/
theorem schedBufs_append (e1 e2 : List SchedCall) :
    schedBufs (e1 ++ e2) = schedBufs e1 ++ schedBufs e2 :=
  List.filterMap_append e1 e2 _

/-- Helper: `schedImgs` distributes over concatenated call lists. -/
theorem schedImgs_append (e1 e2 : List SchedCall) :
    schedImgs (e1 ++ e2) = schedImgs e1 ++ schedImgs e2 :=
  List.filterMap_append e1 e2 _

/-- Helper: the calls collected from a concatenation of resource lists. -/
theorem allEffects_append (effect : Nat → List SchedCall) :
    ∀ l1 l2 : List Nat,
      allEffects effect (l1 ++ l2) = allEffects effect l1 ++ allEffects effect l2 := by
  intro l1 l2
  induction l1 with
  | nil => simp [allEffects]
  | cons i rest ih => simp [allEffects, ih]

/-- Helper: with the lock free, a reentrant purge succeeds outright: it
releases exactly the identifiers that were pending at the swap (images
first, then buffers) and leaves pending exactly what the callbacks
scheduled, in scheduling order, with the lock free again. -/
theorem purgeReentrant_free (effect : Nat → List SchedCall) (s : LockedState)
    (hs : s.locked = false) :
    purgeReentrant effect s
      = some ({ locked := false,
                mBufferToPurge := schedBufs (allEffects effect
                  (s.mImagesToPurge ++ s.mBufferToPurge)),
                mImagesToPurge := schedImgs (allEffects effect
                  (s.mImagesToPurge ++ s.mBufferToPurge)) },
              s.mImagesToPurge ++ s.mBufferToPurge) := by
  rw [purgeReentrant, if_neg (by simp [hs])]
  rw [runCallbacks_free s.mImagesToPurge effect _ rfl]
  rw [Option.some_bind]
  rw [runCallbacks_free s.mBufferToPurge effect _ rfl]
  simp [allEffects_append, schedBufs_append, schedImgs_append]

/-- C3: a release callback that itself calls `scheduleDestroySlow` or
`scheduleRelease` during `DriverBase::purge` completes without
deadlocking — the lock was released before the callbacks run, so every
reentrant schedule call succeeds. The purge in progress releases exactly
the resources that were pending when it swapped the lists (images first,
then buffers), so a freshly scheduled resource is not among them; it sits
in the registry's pending lists when the purge returns, and a subsequent
purge releases everything then pending, that resource included. -/
theorem reentrant_schedule_no_deadlock :
    ∀ (s : LockedState) (effect : Nat → List SchedCall),
      s.locked = false →
      ∃ (s1 : LockedState) (rel : List Nat),
        purgeReentrant effect s = some (s1, rel) ∧
        rel = s.mImagesToPurge ++ s.mBufferToPurge ∧
        s1.locked = false ∧
        s1.mBufferToPurge
          = schedBufs (allEffects effect (s.mImagesToPurge ++ s.mBufferToPurge)) ∧
        s1.mImagesToPurge
          = schedImgs (allEffects effect (s.mImagesToPurge ++ s.mBufferToPurge)) ∧
        ∃ (s2 : LockedState) (rel2 : List Nat),
          purgeReentrant (fun _ => []) s1 = some (s2, rel2) ∧
          rel2 = s1.mImagesToPurge ++ s1.mBufferToPurge := by
  intro s effect hs
  have hpurge := purgeReentrant_free effect s hs
  refine ⟨_, _, hpurge, rfl, rfl, rfl, rfl, ?_⟩
  have hpurge2 := purgeReentrant_free (fun _ => [])
    { locked := false,
      mBufferToPurge := schedBufs (allEffects effect
        (s.mImagesToPurge ++ s.mBufferToPurge)),
      mImagesToPurge := schedImgs (allEffects effect
        (s.mImagesToPurge ++ s.mBufferToPurge)) } rfl
  exact ⟨_, _, hpurge2, rfl⟩

/-- Witness for C3: purging a registry holding image 7 whose callback
schedules buffer 8 succeeds, releases only image 7, leaves buffer 8
pending, and a second purge releases buffer 8. -/
theorem reentrant_schedule_no_deadlock_witness :
    ∃ (s1 : LockedState) (rel : List Nat),
      purgeReentrant (fun i => [SchedCall.buffer (i + 1)])
          { locked := false, mBufferToPurge := [], mImagesToPurge := [7] }
        = some (s1, rel) ∧
      rel = [7] ++ [] ∧
      s1.locked = false ∧
      s1.mBufferToPurge
        = schedBufs (allEffects (fun i => [SchedCall.buffer (i + 1)]) ([7] ++ [])) ∧
      s1.mImagesToPurge
        = schedImgs (allEffects (fun i => [SchedCall.buffer (i + 1)]) ([7] ++ [])) ∧
      ∃ (s2 : LockedState) (rel2 : List Nat),
        purgeReentrant (fun _ => []) s1 = some (s2, rel2) ∧
        rel2 = s1.mImagesToPurge ++ s1.mBufferToPurge :=
  reentrant_schedule_no_deadlock
    { locked := false, mBufferToPurge := [], mImagesToPurge := [7] }
    (fun i => [SchedCall.buffer (i + 1)]) rfl

/-- C7 counterexample: a registry holding one pending acquired image
(identifier 0) at teardown. `DriverBase::~DriverBase` produces only the
`deleteDispatcher` event: it performs no queue drain, no flush of the
registry, and in particular the scheduled image's release callback is
never invoked — its count in the teardown trace is 0, where the claim
requires it to have been invoked. -/
theorem destructor_abandons_pending_image :
    driverBaseDestructor { mBufferToPurge := [], mImagesToPurge := [0] }
      = [TeardownEvent.deleteDispatcher] ∧
    (driverBaseDestructor { mBufferToPurge := [], mImagesToPurge := [0] }).countP
        (· == TeardownEvent.imageCallback 0) = 0 ∧
    (driverBaseDestructor { mBufferToPurge := [], mImagesToPurge := [0] }).countP
        (· == TeardownEvent.purgeCall) = 0 ∧
    (driverBaseDestructor { mBufferToPurge := [], mImagesToPurge := [0] }).countP
        (· == TeardownEvent.drainCommand) = 0 :=
  ⟨rfl, rfl, rfl, rfl⟩

/-- C7 as amended: on destruction of `DriverBase`, the dispatcher is
deleted and the pending-buffer list's disposal fires each pending buffer's
release callback in list order; no command-queue drain and no registry
flush occurs, and pending image release callbacks are never invoked. -/
theorem destructor_only_deletes_and_drops_lists :
    ∀ s : DriverState,
      driverBaseDestructor s
        = [TeardownEvent.deleteDispatcher]
          ++ s.mBufferToPurge.map TeardownEvent.bufferCallback ∧
      (driverBaseDestructor s).countP (· == TeardownEvent.purgeCall) = 0 ∧
      (driverBaseDestructor s).countP (· == TeardownEvent.drainCommand) = 0 ∧
      ∀ i : Nat,
        (driverBaseDestructor s).countP (· == TeardownEvent.imageCallback i) = 0 := by
  intro s
  have hnone : ∀ t : TeardownEvent,
      (∀ b : Nat, t ≠ TeardownEvent.bufferCallback b) →
      t ≠ TeardownEvent.deleteDispatcher →
      (driverBaseDestructor s).countP (· == t) = 0 := by
    intro t hb hd
    rw [List.countP_eq_zero]
    intro e he
    rcases List.mem_append.1 he with h | h
    · simp at h
      subst h
      simp [hd.symm]
    · rcases List.mem_map.1 h with ⟨b, _, rfl⟩
      have := hb b
      simp
      intro hcontra
      exact this hcontra.symm
  exact ⟨rfl,
    hnone TeardownEvent.purgeCall (by intro b h; cases h) (by intro h; cases h),
    hnone TeardownEvent.drainCommand (by intro b h; cases h) (by intro h; cases h),
    fun i => hnone (TeardownEvent.imageCallback i) (by intro b h; cases h) (by intro h; cases h)⟩

/-- C8: with trace markers enabled (`FILAMENT_DEBUG_COMMANDS_SYSTRACE`),
a synchronous operation's wrappers enqueue nothing — the begin marker is
emitted immediately on the calling thread by `debugCommandBegin` and the
end marker immediately by `debugCommandEnd` — while for an asynchronous
operation `debugCommandBegin` enqueues a begin-marker command immediately
ahead of the real work and `debugCommandEnd` an end-marker command
immediately after it, so the FIFO queue the execution thread drains reads
begin marker, work, end marker: the markers bracket actual execution. -/
theorem debug_markers_bracket_execution :
    ∀ (cfg : DebugCommandsConfig) (m w : Nat),
      cfg.systrace = true →
      (enqueuedCommands (debugCommandBegin cfg true m) = [] ∧
       enqueuedCommands (debugCommandEnd cfg true m) = [] ∧
       MarkerEvent.traceBegin m ∈ immediateMarkers (debugCommandBegin cfg true m) ∧
       immediateMarkers (debugCommandEnd cfg true m) = [MarkerEvent.traceEnd]) ∧
      enqueuedCommands (debugCommandBegin cfg false m)
          ++ [QueuedCommand.realWork w]
          ++ enqueuedCommands (debugCommandEnd cfg false m)
        = [QueuedCommand.beginMarker m, QueuedCommand.realWork w,
           QueuedCommand.endMarker] := by
  intro cfg m w hst
  obtain ⟨lg, st⟩ := cfg
  cases hst
  cases lg <;>
    simp [debugCommandBegin, debugCommandEnd, enqueuedCommands, immediateMarkers,
      List.filterMap_cons]

/-- Witness for C8 with logging off, systrace on, method 7, work 3. -/
theorem debug_markers_bracket_execution_witness :
    (enqueuedCommands (debugCommandBegin { log := false, systrace := true } true 7) = [] ∧
     enqueuedCommands (debugCommandEnd { log := false, systrace := true } true 7) = [] ∧
     MarkerEvent.traceBegin 7
       ∈ immediateMarkers (debugCommandBegin { log := false, systrace := true } true 7) ∧
     immediateMarkers (debugCommandEnd { log := false, systrace := true } true 7)
       = [MarkerEvent.traceEnd]) ∧
    enqueuedCommands (debugCommandBegin { log := false, systrace := true } false 7)
        ++ [QueuedCommand.realWork 3]
        ++ enqueuedCommands (debugCommandEnd { log := false, systrace := true } false 7)
      = [QueuedCommand.beginMarker 7, QueuedCommand.realWork 3,
         QueuedCommand.endMarker] :=
  debug_markers_bracket_execution { log := false, systrace := true } 7 3 rfl

/-- C10: with trace markers enabled, for an asynchronous operation the
wrappers emit the markers twice: `debugCommandBegin` emits the begin
marker immediately on the calling thread and then enqueues the
begin-marker command, and `debugCommandEnd` first enqueues the end-marker
command and then emits the end marker immediately on the calling thread —
so the submission window is bracketed by an immediate begin/end pair in
addition to the queued pair that brackets actual execution. -/
theorem debug_markers_also_emitted_at_call_site :
    ∀ (cfg : DebugCommandsConfig) (m : Nat),
      cfg.systrace = true →
      debugCommandBegin cfg false m
        = (if cfg.log then [CallAction.emit (MarkerEvent.logName m)] else [])
          ++ [CallAction.emit (MarkerEvent.traceBegin m),
              CallAction.queueCommand (QueuedCommand.beginMarker m)] ∧
      debugCommandEnd cfg false m
        = [CallAction.queueCommand QueuedCommand.endMarker,
           CallAction.emit MarkerEvent.traceEnd] := by
  intro cfg m hst
  obtain ⟨lg, st⟩ := cfg
  cases hst
  cases lg <;> simp [debugCommandBegin, debugCommandEnd]

/-- Witness for C10 with logging on, systrace on, method 7. -/
theorem debug_markers_also_emitted_at_call_site_witness :
    debugCommandBegin { log := true, systrace := true } false 7
      = (if ({ log := true, systrace := true } : DebugCommandsConfig).log then
            [CallAction.emit (MarkerEvent.logName 7)]
          else [])
        ++ [CallAction.emit (MarkerEvent.traceBegin 7),
            CallAction.queueCommand (QueuedCommand.beginMarker 7)] ∧
    debugCommandEnd { log := true, systrace := true } false 7
      = [CallAction.queueCommand QueuedCommand.endMarker,
         CallAction.emit MarkerEvent.traceEnd] :=
  debug_markers_also_emitted_at_call_site { log := true, systrace := true } 7 rfl

end FilamentDriver
